import Mathlib

/-!
Shallow embedding of the `pyheatpump` package (COP engine `pyheatpump/cop.py`,
power calculator `pyheatpump/power.py`, cost interpolator `pyheatpump/costs.py`,
and the older COP module `hp/cop.py`), together with theorems settling the
spec claims about it.

Modelling conventions:
* Python floats are modelled by `ℚ`; decimal literals are exact.
* Python dicts (insertion-ordered, string keys) are modelled by association
  lists; `d[k]` is `List.lookup` with a `KeyError` on a missing key; `k in d`
  is `(List.lookup k d).isSome`; iteration is list recursion in order.
* Raised exceptions are modelled by `Except Err`; `warnings.warn` calls are
  collected in a `List Warning` returned alongside the result.
* Python `x ** y` on floats is modelled by an arbitrary function parameter
  `powf : ℚ → ℚ → ℚ` which every theorem quantifies over, since no claim
  depends on the numeric value of a float power.
-/

namespace PyHeatPump

/-- Python exceptions raised by the embedded functions. -/
inductive Err where
  /-- `KeyError: None` from `parameters[hp]` when `hp` is `None`. -/
  | keyErrorNone : Err
  /-- `KeyError` from a dict subscript with a missing string key. -/
  | keyError (k : String) : Err
  /-- `ValueError` from `calculate`'s validation: "The key k is missing in the parameters dict." -/
  | missingKey (k : String) : Err
  /-- `ValueError`: "The size of the heat pump must be positive." -/
  | sizeNegative : Err
  /-- `ValueError`: "The size of the heat pump is too small." -/
  | sizeTooSmall : Err
  /-- `ValueError`: "The temperature difference must be positive." -/
  | tempDiffNegative : Err
  /-- `ValueError`: "The mass flow rate must be positive." -/
  | massFlowNegative : Err
  /-- `ValueError`: "The coefficient of performance must be positive." -/
  | copNegative : Err
  /-- `ValueError`: "The thermal power source must be positive." -/
  | powerNegative : Err
  /-- `ZeroDivisionError` from float division by zero. -/
  | zeroDivision : Err
  /-- `AttributeError` from iterating `.items()` on `None`. -/
  | noneHasNoItems : Err
deriving DecidableEq

/-- Advisory warnings emitted through `warnings.warn`, with the datum-formatted
into the message text. -/
inductive Warning where
  /-- "The heat pump with sink temperature ... could not be classified." -/
  | unclassified (sink_temperature : ℚ)
  /-- "The temperature difference ... is outside the range of the model." -/
  | deltaOutOfRange (delta : ℚ)
  /-- "The temperature of the source ... is outside the range of the model." -/
  | sourceOutOfRange (source_temperature : ℚ)
deriving DecidableEq

/-- An inner parameter dict such as `{"T_sink_out_low": 0, ..., "d": 0.0}`. -/
abbrev FieldDict := List (String × ℚ)

/-- The outer parameter dict: heat-pump type name to its field dict. -/
abbrev ParamDict := List (String × FieldDict)

/-- Python `d[f]` on an inner dict: the value, or a `KeyError`. -/
def pyGet (d : FieldDict) (f : String) : Except Err ℚ :=
  match d.lookup f with
  | some v => Except.ok v
  | none => Except.error (Err.keyError f)

/-- `HP_PARAMETERS` of `pyheatpump/cop.py` (identical in `hp/cop.py`). -/
def HP_PARAMETERS : ParamDict :=
  [("conventional",
     [("T_sink_out_low", 0), ("T_sink_out_high", 100),
      ("a", 1.4480e12), ("b", 88.730), ("c", -4.9460), ("d", 0.0000)]),
   ("very high temperature",
     [("T_sink_out_low", 100), ("T_sink_out_high", 160),
      ("a", 1.9118), ("b", -0.89094), ("c", 0.67895), ("d", 0.044189)])]

/-- The `for key, values in parameters.items()` loop of `classify_hp`, with the
running `_type` accumulator.  The chained comparison
`values['T_sink_out_low'] <= T_sink_out <= values['T_sink_out_high']` looks up
the low bound first and the high bound only if the first comparison holds. -/
def classifyLoop (T_sink_out : ℚ) : ParamDict → Option String → Except Err (Option String)
  | [], acc => Except.ok acc
  | (key, values) :: rest, acc => do
      let low ← pyGet values "T_sink_out_low"
      if low ≤ T_sink_out then do
        let high ← pyGet values "T_sink_out_high"
        if T_sink_out ≤ high then
          classifyLoop T_sink_out rest (some key)
        else
          classifyLoop T_sink_out rest acc
      else
        classifyLoop T_sink_out rest acc

/-- `classify_hp` of `pyheatpump/cop.py` (identical body in `hp/cop.py`).
The `parameters` argument defaults to `None`; the body iterates
`parameters.items()` without substituting the hardcoded default, so a `None`
argument raises `AttributeError`. -/
def classify_hp (T_sink_out : ℚ) (parameters : Option ParamDict) : Except Err (Option String) :=
  match parameters with
  | none => Except.error Err.noneHasNoItems
  | some ps => classifyLoop T_sink_out ps none

/-- `jesper_conventional`: `a * (delta_T + 2*b) ** c * (T_sink_out + b) ** d`,
with dict lookups in Python evaluation order. -/
def jesper_conventional (powf : ℚ → ℚ → ℚ) (delta_T T_sink_out : ℚ)
    (parameters : FieldDict) : Except Err ℚ := do
  let a ← pyGet parameters "a"
  let b ← pyGet parameters "b"
  let c ← pyGet parameters "c"
  let term1 := a * powf (delta_T + 2 * b) c
  let b2 ← pyGet parameters "b"
  let d ← pyGet parameters "d"
  let term2 := powf (T_sink_out + b2) d
  Except.ok (term1 * term2)

/-- `jesper_very_high`: `a * (delta_T + 2*d) ** b * (T_sink_out + d) ** c`. -/
def jesper_very_high (powf : ℚ → ℚ → ℚ) (delta_T T_sink_out : ℚ)
    (parameters : FieldDict) : Except Err ℚ := do
  let a ← pyGet parameters "a"
  let d ← pyGet parameters "d"
  let b ← pyGet parameters "b"
  let term1 := a * powf (delta_T + 2 * d) b
  let d2 ← pyGet parameters "d"
  let c ← pyGet parameters "c"
  let term2 := powf (T_sink_out + d2) c
  Except.ok (term1 * term2)

/-- `carnot` of `pyheatpump/cop.py`: `quality_factor * (T_sink_out / delta_T)`.
Float division by zero raises `ZeroDivisionError`. -/
def carnot (delta_T T_sink_out quality_factor : ℚ) : Except Err ℚ :=
  if delta_T = 0 then Except.error Err.zeroDivision
  else Except.ok (quality_factor * (T_sink_out / delta_T))

/-- `carnot` of `hp/cop.py`: converts its sink argument a second time via
`T = T_sink_out + 273.15` and returns `quality_factor * (T / (delta_T + T))`. -/
def hp_carnot (delta_T T_sink_out quality_factor : ℚ) : Except Err ℚ :=
  let T := T_sink_out + 273.15
  if delta_T + T = 0 then Except.error Err.zeroDivision
  else Except.ok (quality_factor * (T / (delta_T + T)))

/-- Inner validation loop of `calculate`:
`for k, v in value.items(): if k not in parameters[key]: raise ValueError(...)`. -/
def checkFieldLoop (fields : List String) (d : FieldDict) : Except Err Unit :=
  match fields with
  | [] => Except.ok ()
  | k :: rest =>
      if (d.lookup k).isSome then checkFieldLoop rest d
      else Except.error (Err.missingKey k)

/-- Outer validation loop of `calculate`:
`for key, value in HP_PARAMETERS.items(): if key not in parameters: raise ...`
followed by the field check against `parameters[key]`. -/
def checkKeyLoop (defaults : ParamDict) (parameters : ParamDict) : Except Err Unit :=
  match defaults with
  | [] => Except.ok ()
  | (key, value) :: rest =>
      match parameters.lookup key with
      | none => Except.error (Err.missingKey key)
      | some d => do
          checkFieldLoop (value.map Prod.fst) d
          checkKeyLoop rest parameters

/-- The `if parameters is None: parameters = HP_PARAMETERS else: <validation>`
prologue of `calculate` (identical in both COP modules). -/
def resolveParams (parameters : Option ParamDict) : Except Err ParamDict :=
  match parameters with
  | none => Except.ok HP_PARAMETERS
  | some ps => do
      checkKeyLoop HP_PARAMETERS ps
      Except.ok ps

/-- `calculate` of `pyheatpump/cop.py`.  Returns the list of emitted warnings
together with either the COP or the raised exception.  Note `p =
parameters[hp]` is executed before the branch on `hp`, so an unclassified
sink temperature raises `KeyError: None` right after the advisory warning. -/
def calculate (powf : ℚ → ℚ → ℚ) (source_temperature sink_temperature : ℚ)
    (parameters : Option ParamDict) : List Warning × Except Err ℚ :=
  match resolveParams parameters with
  | Except.error e => ([], Except.error e)
  | Except.ok params =>
    match classify_hp sink_temperature (some params) with
    | Except.error e => ([], Except.error e)
    | Except.ok hp =>
      let w0 : List Warning :=
        if hp = none then [Warning.unclassified sink_temperature] else []
      let T := sink_temperature + 273.15
      let delta := sink_temperature - source_temperature
      match (match hp with
             | none => Except.error Err.keyErrorNone
             | some k =>
                 match params.lookup k with
                 | some d => Except.ok d
                 | none => Except.error (Err.keyError k)) with
      | Except.error e => (w0, Except.error e)
      | Except.ok p =>
        if hp = some "conventional" then
          match jesper_conventional powf delta T p with
          | Except.error e => (w0, Except.error e)
          | Except.ok cop =>
            let w1 : List Warning :=
              if 10 > delta ∧ delta > 78 then [Warning.deltaOutOfRange delta] else []
            let w2 : List Warning :=
              if -10 > source_temperature ∧ source_temperature > 60 then
                [Warning.sourceOutOfRange source_temperature] else []
            (w0 ++ w1 ++ w2, Except.ok cop)
        else if hp = some "very high temperature" then
          match jesper_very_high powf delta T p with
          | Except.error e => (w0, Except.error e)
          | Except.ok cop =>
            let w1 : List Warning :=
              if 25 > delta ∧ delta > 95 then [Warning.deltaOutOfRange delta] else []
            let w2 : List Warning :=
              if 25.1 > source_temperature ∧ source_temperature > 110.1 then
                [Warning.sourceOutOfRange source_temperature] else []
            (w0 ++ w1 ++ w2, Except.ok cop)
        else
          match carnot delta T 0.4 with
          | Except.error e => (w0, Except.error e)
          | Except.ok cop => (w0, Except.ok cop)

/-- `calculate` of `hp/cop.py`.  Byte-for-byte the same logic as
`pyheatpump.cop.calculate` (validation, classification, warning guards)
except that the fallback branch calls the `hp/cop.py` version of `carnot`,
which performs a second Celsius-to-Kelvin conversion internally. -/
def hp_calculate (powf : ℚ → ℚ → ℚ) (T_source T_sink : ℚ)
    (parameters : Option ParamDict) : List Warning × Except Err ℚ :=
  match resolveParams parameters with
  | Except.error e => ([], Except.error e)
  | Except.ok params =>
    match classify_hp T_sink (some params) with
    | Except.error e => ([], Except.error e)
    | Except.ok hp =>
      let w0 : List Warning :=
        if hp = none then [Warning.unclassified T_sink] else []
      let T := T_sink + 273.15
      let delta := T_sink - T_source
      match (match hp with
             | none => Except.error Err.keyErrorNone
             | some k =>
                 match params.lookup k with
                 | some d => Except.ok d
                 | none => Except.error (Err.keyError k)) with
      | Except.error e => (w0, Except.error e)
      | Except.ok p =>
        if hp = some "conventional" then
          match jesper_conventional powf delta T p with
          | Except.error e => (w0, Except.error e)
          | Except.ok cop =>
            let w1 : List Warning :=
              if 10 > delta ∧ delta > 78 then [Warning.deltaOutOfRange delta] else []
            let w2 : List Warning :=
              if -10 > T_source ∧ T_source > 60 then
                [Warning.sourceOutOfRange T_source] else []
            (w0 ++ w1 ++ w2, Except.ok cop)
        else if hp = some "very high temperature" then
          match jesper_very_high powf delta T p with
          | Except.error e => (w0, Except.error e)
          | Except.ok cop =>
            let w1 : List Warning :=
              if 25 > delta ∧ delta > 95 then [Warning.deltaOutOfRange delta] else []
            let w2 : List Warning :=
              if 25.1 > T_source ∧ T_source > 110.1 then
                [Warning.sourceOutOfRange T_source] else []
            (w0 ++ w1 ++ w2, Except.ok cop)
        else
          match hp_carnot delta T 0.4 with
          | Except.error e => (w0, Except.error e)
          | Except.ok cop => (w0, Except.ok cop)

/-- `WATER` of `pyheatpump/power.py`. -/
def WATER : List (String × ℚ) := [("cp", 4.187e3)]

/-- `calculate_thermal_power` of `pyheatpump/power.py`.  `WATER["cp"]` always
succeeds (the key is present in the literal), so it is read with `getD`. -/
def calculate_thermal_power (high_temperature low_temperature mass_flow : ℚ) :
    Except Err ℚ :=
  let delta_T := high_temperature - low_temperature
  if delta_T < 0 then Except.error Err.tempDiffNegative
  else if mass_flow < 0 then Except.error Err.massFlowNegative
  else
    let heat_capacity := (WATER.lookup "cp").getD 0 * mass_flow
    Except.ok (heat_capacity * delta_T)

/-- `calculate_output_power` of `pyheatpump/power.py`.  The final
`(1 + cop) * thermal_power_source / cop` raises `ZeroDivisionError` on
`cop == 0`, which the zero test models. -/
def calculate_output_power (cop thermal_power_source : ℚ) : Except Err ℚ :=
  if cop < 0 then Except.error Err.copNegative
  else if thermal_power_source < 0 then Except.error Err.powerNegative
  else if cop = 0 then Except.error Err.zeroDivision
  else Except.ok ((1 + cop) * thermal_power_source / cop)

/-- `COST_REGRESSION` of `pyheatpump/costs.py`; the costs `1.32e6`, `0.91e6`,
`0.71e6`, `0.51e6` are written as the equal integer literals. -/
def COST_REGRESSION : List (ℚ × ℚ) :=
  [(1, 1320000), (3, 910000), (10, 710000), (20, 510000)]

/-- Body of `interpolate` after the `costs is None` default substitution.
`sorted(costs.keys())` is modelled by insertion sort; on the sorted key list,
`bisect.bisect_right(keys, size)` is the number of keys `≤ size`, which is
what `countP` computes.  `keys[-1]`, `keys[pos-1]`, `keys[pos]`, and
`costs[x]` for `x` drawn from `keys` are in-bounds accesses, modelled with
`getD`. -/
def interpolateTable (size : ℚ) (costs : List (ℚ × ℚ)) : Except Err ℚ :=
  if size < 0 then Except.error Err.sizeNegative
  else
    match costs.lookup size with
    | some c => Except.ok c
    | none =>
      let keys := List.insertionSort (· ≤ ·) (costs.map Prod.fst)
      let pos := keys.countP fun k => decide (k ≤ size)
      if pos = 0 then Except.error Err.sizeTooSmall
      else if pos = keys.length then
        Except.ok ((costs.lookup (keys.getD (keys.length - 1) 0)).getD 0)
      else
        let x1 := keys.getD (pos - 1) 0
        let x2 := keys.getD pos 0
        let y1 := (costs.lookup x1).getD 0
        let y2 := (costs.lookup x2).getD 0
        Except.ok (y1 + (y2 - y1) * (size - x1) / (x2 - x1))

/-- `interpolate` of `pyheatpump/costs.py`; `costs` defaults to `None`,
in which case the hardcoded `COST_REGRESSION` is used. -/
def interpolate (size : ℚ) (costs : Option (List (ℚ × ℚ))) : Except Err ℚ :=
  match costs with
  | none => interpolateTable size COST_REGRESSION
  | some cs => interpolateTable size cs

/-- The classification test of one `classify_hp` loop iteration, read off a
well-formed entry: the inclusive range `[T_sink_out_low, T_sink_out_high]`
contains the sink temperature. -/
def matchesRange (T_sink_out : ℚ) (kv : String × FieldDict) : Bool :=
  decide ((kv.2.lookup "T_sink_out_low").getD 0 ≤ T_sink_out ∧
    T_sink_out ≤ (kv.2.lookup "T_sink_out_high").getD 0)

/-- Well-formedness of a parameter dict for classification: every entry
carries both range bounds (the data-model invariant of the spec). -/
def hasBounds (ps : ParamDict) : Prop :=
  ∀ kv ∈ ps, (kv.2.lookup "T_sink_out_low").isSome = true ∧
    (kv.2.lookup "T_sink_out_high").isSome = true

instance (ps : ParamDict) : Decidable (hasBounds ps) := by
  unfold hasBounds; infer_instance

/-- A caller-supplied parameter dict that strictly extends the default table
with a third heat-pump type covering sink temperatures in `[160, 200]`. -/
def extendedParams : ParamDict :=
  HP_PARAMETERS ++
    [("custom",
       [("T_sink_out_low", 160), ("T_sink_out_high", 200),
        ("a", 0), ("b", 0), ("c", 0), ("d", 0)])]

instance {ε α : Type} [DecidableEq ε] [DecidableEq α] : DecidableEq (Except ε α) :=
  fun a b =>
    match a, b with
    | Except.ok x, Except.ok y =>
        if h : x = y then isTrue (by rw [h]) else isFalse (by intro hc; cases hc; exact h rfl)
    | Except.error x, Except.error y =>
        if h : x = y then isTrue (by rw [h]) else isFalse (by intro hc; cases hc; exact h rfl)
    | Except.ok _, Except.error _ => isFalse (by intro hc; cases hc)
    | Except.error _, Except.ok _ => isFalse (by intro hc; cases hc)

/-! ## Theorems about the embedded program -/

/-- C1: with the default parameter table, `calculate(-20, 170)` classifies to
`None`, emits the unclassified-sink advisory warning, and then raises
`KeyError: None` at `p = parameters[hp]` instead of returning the Carnot
value; the Carnot value the fallback would have produced (and which the
repository's own `test_carnot` expects) is `8863/9500 = 0.93294736842...`. -/
theorem calculate_unclassified_default_raises_keyErrorNone :
    ∀ powf : ℚ → ℚ → ℚ,
      calculate powf (-20) 170 none =
        ([Warning.unclassified 170], Except.error Err.keyErrorNone) ∧
      carnot (170 - (-20)) (170 + 273.15) 0.4 = Except.ok (8863 / 9500) := by
  intro powf
  constructor
  · simp [calculate, resolveParams, classify_hp, classifyLoop, pyGet,
      HP_PARAMETERS, List.lookup, bind, Except.bind]
    norm_num
  · simp [carnot]
    norm_num

/-- C10: calling `classify_hp` with its `parameters` argument left at the
advertised `None` default raises an `AttributeError` (iterating
`None.items()`) for every sink temperature, instead of falling back to the
hardcoded default table. -/
theorem classify_hp_none_raises :
    ∀ T_sink_out : ℚ, classify_hp T_sink_out none = Except.error Err.noneHasNoItems := by
  intro T; rfl

/-- C6: `calculate_thermal_power` fails with a validation error exactly on an
inverted temperature pair or a negative mass flow, and otherwise returns
`specific_heat * mass_flow * (high - low)` with the water heat capacity
`4187 J/(kg K)`. -/
theorem calculate_thermal_power_spec :
    ∀ high_temperature low_temperature mass_flow : ℚ,
      ((high_temperature < low_temperature ∨ mass_flow < 0) →
        ∃ e, calculate_thermal_power high_temperature low_temperature mass_flow =
          Except.error e) ∧
      (low_temperature ≤ high_temperature → 0 ≤ mass_flow →
        calculate_thermal_power high_temperature low_temperature mass_flow =
          Except.ok (4187 * mass_flow * (high_temperature - low_temperature))) := by
  intro h l m
  unfold calculate_thermal_power
  constructor
  · rintro (hlt | hm)
    · exact ⟨Err.tempDiffNegative, by rw [if_pos (by linarith)]⟩
    · by_cases hd : h - l < 0
      · exact ⟨Err.tempDiffNegative, by rw [if_pos hd]⟩
      · exact ⟨Err.massFlowNegative, by rw [if_neg hd, if_pos hm]⟩
  · intro hle hm
    rw [if_neg (by linarith), if_neg (by linarith)]
    simp only [WATER, List.lookup]
    norm_num [mul_assoc]

/-- C7: `calculate_output_power` fails with a validation error on a negative
COP or negative source power, raises `ZeroDivisionError` on `cop = 0`, and
for `cop > 0` and nonnegative source power returns
`(1 + cop) / cop * thermal_power_source`. -/
theorem calculate_output_power_spec :
    ∀ cop thermal_power_source : ℚ,
      ((cop < 0 ∨ thermal_power_source < 0) →
        ∃ e, calculate_output_power cop thermal_power_source = Except.error e) ∧
      (cop = 0 → 0 ≤ thermal_power_source →
        calculate_output_power cop thermal_power_source =
          Except.error Err.zeroDivision) ∧
      (0 < cop → 0 ≤ thermal_power_source →
        calculate_output_power cop thermal_power_source =
          Except.ok ((1 + cop) / cop * thermal_power_source)) := by
  intro c t
  unfold calculate_output_power
  refine ⟨?_, ?_, ?_⟩
  · rintro (hc | ht)
    · exact ⟨Err.copNegative, by rw [if_pos hc]⟩
    · by_cases hc : c < 0
      · exact ⟨Err.copNegative, by rw [if_pos hc]⟩
      · exact ⟨Err.powerNegative, by rw [if_neg hc, if_pos ht]⟩
  · intro hc ht
    rw [if_neg (by linarith), if_neg (by linarith), if_pos hc]
  · intro hc ht
    rw [if_neg (by linarith), if_neg (by linarith), if_neg (by linarith)]
    congr 1
    field_simp

/-- C9: the two shipped COP modules are not extensionally equal.  At the
concrete Carnot-branch inputs (`source = -20 °C`, `sink = 170 °C`, parameter
table extended with a `"custom"` type covering `[160, 200]`), `pyheatpump`
returns `0.4 * 443.15 / 190 = 8863/9500` while `hp` returns
`0.4 * (443.15 + 273.15) / (190 + 443.15 + 273.15) = 754/2385`; the last two
conjuncts exhibit the two `carnot` formulas at those arguments. -/
theorem hp_and_pyheatpump_modules_differ :
    calculate (fun _ _ => 0) (-20) 170 (some extendedParams) =
      ([], Except.ok (8863 / 9500)) ∧
    hp_calculate (fun _ _ => 0) (-20) 170 (some extendedParams) =
      ([], Except.ok (754 / 2385)) ∧
    (8863 / 9500 : ℚ) ≠ 754 / 2385 ∧
    carnot (170 - (-20)) (170 + 273.15) 0.4 =
      Except.ok (0.4 * ((170 + 273.15) / (170 - (-20)))) ∧
    hp_carnot (170 - (-20)) (170 + 273.15) 0.4 =
      Except.ok (0.4 * ((170 + 273.15 + 273.15) / (170 - (-20) + (170 + 273.15 + 273.15)))) := by
  refine ⟨?_, ?_, by norm_num, ?_, ?_⟩
  · simp [calculate, resolveParams, checkKeyLoop, checkFieldLoop, extendedParams,
      classify_hp, classifyLoop, pyGet, HP_PARAMETERS, List.lookup, bind,
      Except.bind, carnot]
    norm_num
    simp
  · simp [hp_calculate, resolveParams, checkKeyLoop, checkFieldLoop, extendedParams,
      classify_hp, classifyLoop, pyGet, HP_PARAMETERS, List.lookup, bind,
      Except.bind, hp_carnot]
    norm_num
    simp
  · simp [carnot]
    norm_num
  · simp [hp_carnot]
    norm_num

/-- C2: whenever `calculate` reaches a regression branch (the sink
temperature classifies as `"conventional"` or `"very high temperature"`), no
advisory warning is emitted: the unclassified warning is skipped because the
type is not `None`, and each operating-range guard has the chained form
`low > x > high` with `low < high`, a condition no rational `x` satisfies. -/
theorem calculate_regression_warnings_empty :
    ∀ (powf : ℚ → ℚ → ℚ) (source_temperature sink_temperature : ℚ)
      (parameters : Option ParamDict) (ps : ParamDict),
      resolveParams parameters = Except.ok ps →
      (classify_hp sink_temperature (some ps) = Except.ok (some "conventional") ∨
        classify_hp sink_temperature (some ps) = Except.ok (some "very high temperature")) →
      (calculate powf source_temperature sink_temperature parameters).1 = [] := by
  intro powf src sink popt ps hres hcl
  rcases hcl with h1 | h1 <;>
    simp only [calculate, hres, h1] <;>
    cases hlk : List.lookup "conventional" ps <;>
    cases hlk2 : List.lookup "very high temperature" ps <;>
    simp [hlk, hlk2] <;>
    (try split) <;>
    simp_all <;>
    (constructor <;> intro <;> linarith)

/-- C2 witness: `calculate(20, 60)` with the default table classifies as
conventional and emits no warning. -/
theorem calculate_regression_warnings_empty_witness :
    (calculate (fun _ _ => 1) 20 60 none).1 = [] := by
  refine calculate_regression_warnings_empty (fun _ _ => 1) 20 60 none HP_PARAMETERS rfl
    (Or.inl ?_)
  simp [classify_hp, classifyLoop, pyGet, HP_PARAMETERS, List.lookup, bind, Except.bind]
  norm_num

/-- The classification loop keeps overwriting its accumulator, so it ends at
the key of the LAST matching entry; equivalently, the first matching entry of
the reversed list. -/
theorem classifyLoop_find (T : ℚ) (ps : ParamDict) (hwf : hasBounds ps) :
    ∀ acc, classifyLoop T ps acc = Except.ok
      (match ps.reverse.find? (matchesRange T) with
       | some kv => some kv.1
       | none => acc) := by
  induction ps with
  | nil => intro acc; rfl
  | cons kv rest ih =>
    obtain ⟨key, values⟩ := kv
    intro acc
    obtain ⟨hlo0, hhi0⟩ := hwf (key, values) (List.mem_cons_self _ _)
    obtain ⟨lo, hlo⟩ := Option.isSome_iff_exists.mp hlo0
    obtain ⟨hi, hhi⟩ := Option.isSome_iff_exists.mp hhi0
    have hrest : hasBounds rest := fun e he => hwf e (List.mem_cons_of_mem _ he)
    have hmr : matchesRange T (key, values) = decide (lo ≤ T ∧ T ≤ hi) := by
      simp [matchesRange, hlo, hhi]
    rw [List.reverse_cons]
    rw [show classifyLoop T ((key, values) :: rest) acc
        = (do
            let low ← pyGet values "T_sink_out_low"
            if low ≤ T then do
              let high ← pyGet values "T_sink_out_high"
              if T ≤ high then classifyLoop T rest (some key)
              else classifyLoop T rest acc
            else classifyLoop T rest acc) from rfl]
    simp only [pyGet, hlo, hhi, bind, Except.bind, List.find?_append]
    by_cases h1 : lo ≤ T
    · rw [if_pos h1]
      by_cases h2 : T ≤ hi
      · rw [if_pos h2, ih hrest (some key)]
        cases hf : rest.reverse.find? (matchesRange T) <;>
          simp [List.find?, hmr, h1, h2, Option.or]
      · rw [if_neg h2, ih hrest acc]
        cases hf : rest.reverse.find? (matchesRange T) <;>
          simp [List.find?, hmr, h2, Option.or]
    · rw [if_neg h1]
      rw [ih hrest acc]
      cases hf : rest.reverse.find? (matchesRange T) <;>
        simp [List.find?, hmr, h1, Option.or]

/-- C3: `classify_hp` returns the key of the LAST entry (in insertion order)
whose inclusive `[T_sink_out_low, T_sink_out_high]` range contains the sink
temperature — the first match of the reversed entry list — and in particular
it returns some type name iff at least one entry range contains the sink
temperature; with the default table, the boundary value `100` (contained in
both ranges) classifies as `"very high temperature"`. -/
theorem classify_hp_last_match :
    ∀ (T_sink_out : ℚ) (ps : ParamDict), hasBounds ps →
      (classify_hp T_sink_out (some ps) =
        Except.ok ((ps.reverse.find? (matchesRange T_sink_out)).map Prod.fst)) ∧
      ((ps.reverse.find? (matchesRange T_sink_out)).isSome = true ↔
        ∃ kv ∈ ps, matchesRange T_sink_out kv = true) ∧
      classify_hp 100 (some HP_PARAMETERS) = Except.ok (some "very high temperature") := by
  intro T ps hwf
  refine ⟨?_, ?_, ?_⟩
  · rw [show classify_hp T (some ps) = classifyLoop T ps none from rfl,
      classifyLoop_find T ps hwf none]
    cases ps.reverse.find? (matchesRange T) <;> rfl
  · rw [List.find?_isSome]
    constructor
    · rintro ⟨kv, hkv, hm⟩
      exact ⟨kv, List.mem_reverse.mp hkv, hm⟩
    · rintro ⟨kv, hkv, hm⟩
      exact ⟨kv, List.mem_reverse.mpr hkv, hm⟩
  · simp [classify_hp, classifyLoop, pyGet, HP_PARAMETERS, List.lookup, bind, Except.bind]
    norm_num

/-- C3 witness: the default table is well-formed, and sink temperature 100
classifies as very high temperature. -/
theorem classify_hp_last_match_witness :
    classify_hp 100 (some HP_PARAMETERS) = Except.ok (some "very high temperature") :=
  (classify_hp_last_match 100 HP_PARAMETERS (by decide)).2.2

/-- C4 counterexample: a caller-supplied parameter set whose key set is NOT
exactly that of the default table (it has the extra type `"custom"`) is not
rejected: `calculate(20, 60)` with it passes validation and computes a COP
through the conventional regression branch. -/
theorem calculate_extra_key_accepted :
    ("custom" ∈ extendedParams.map Prod.fst ∧
      "custom" ∉ HP_PARAMETERS.map Prod.fst) ∧
    calculate (fun _ _ => 0) 20 60 (some extendedParams) = ([], Except.ok 0) := by
  refine ⟨⟨by simp [extendedParams, HP_PARAMETERS], by simp [HP_PARAMETERS]⟩, ?_⟩
  simp [calculate, resolveParams, checkKeyLoop, checkFieldLoop, extendedParams,
    classify_hp, classifyLoop, pyGet, HP_PARAMETERS, List.lookup, bind,
    Except.bind, jesper_conventional]
  norm_num
  simp [List.lookup, bind, Except.bind, pyGet]

/-- The inner validation loop accepts exactly the dicts containing every
required field name. -/
theorem checkFieldLoop_ok_iff : ∀ (fields : List String) (d : FieldDict),
    checkFieldLoop fields d = Except.ok () ↔
      ∀ f ∈ fields, (d.lookup f).isSome = true
  | [], d => by
      constructor
      · intro _ f hf
        cases hf
      · intro _
        rfl
  | k :: rest, d => by
      rw [show checkFieldLoop (k :: rest) d
          = (if (d.lookup k).isSome then checkFieldLoop rest d
             else Except.error (Err.missingKey k)) from rfl]
      by_cases hk : (d.lookup k).isSome = true
      · rw [if_pos hk, checkFieldLoop_ok_iff rest d]
        constructor
        · intro h f hf
          rcases List.mem_cons.mp hf with rfl | hf2
          · exact hk
          · exact h f hf2
        · intro h f hf
          exact h f (List.mem_cons_of_mem _ hf)
      · rw [if_neg hk]
        constructor
        · intro h
          cases h
        · intro h
          exact absurd (h k (List.mem_cons_self _ _)) hk

/-- Any error of the inner validation loop names a missing key. -/
theorem checkFieldLoop_error_missing : ∀ (fields : List String) (d : FieldDict) (e : Err),
    checkFieldLoop fields d = Except.error e → ∃ k, e = Err.missingKey k
  | [], _, _ => by
      intro h
      cases h
  | k :: rest, d, e => by
      rw [show checkFieldLoop (k :: rest) d
          = (if (d.lookup k).isSome then checkFieldLoop rest d
             else Except.error (Err.missingKey k)) from rfl]
      by_cases hk : (d.lookup k).isSome = true
      · rw [if_pos hk]
        exact checkFieldLoop_error_missing rest d e
      · rw [if_neg hk]
        intro h
        injection h with h2
        exact ⟨k, h2.symm⟩

/-- The outer validation loop accepts exactly the parameter dicts that carry
every default key, with every default field present under it; extra keys and
extra fields are never examined. -/
theorem checkKeyLoop_ok_iff : ∀ (defaults ps : ParamDict),
    checkKeyLoop defaults ps = Except.ok () ↔
      ∀ kv ∈ defaults, ∃ d, ps.lookup kv.1 = some d ∧
        ∀ f ∈ kv.2.map Prod.fst, (d.lookup f).isSome = true
  | [], ps => by
      constructor
      · intro _ kv hkv
        cases hkv
      · intro _
        rfl
  | (key, value) :: rest, ps => by
      rw [show checkKeyLoop ((key, value) :: rest) ps
          = (match ps.lookup key with
             | none => Except.error (Err.missingKey key)
             | some d => do
                 checkFieldLoop (value.map Prod.fst) d
                 checkKeyLoop rest ps) from rfl]
      cases hlk : ps.lookup key with
      | none =>
        constructor
        · intro h
          cases h
        · intro h
          obtain ⟨d, hd, _⟩ := h (key, value) (List.mem_cons_self _ _)
          rw [hlk] at hd
          cases hd
      | some d =>
        show (do
            checkFieldLoop (value.map Prod.fst) d
            checkKeyLoop rest ps) = Except.ok () ↔ _
        cases hcf : checkFieldLoop (value.map Prod.fst) d with
        | error e =>
          show Except.error e = Except.ok () ↔ _
          constructor
          · intro h
            cases h
          · intro h
            obtain ⟨d2, hd2, hfld⟩ := h (key, value) (List.mem_cons_self _ _)
            rw [hlk] at hd2
            injection hd2 with hd3
            subst hd3
            have h2 := (checkFieldLoop_ok_iff (value.map Prod.fst) d).mpr hfld
            rw [hcf] at h2
            cases h2
        | ok u =>
          obtain ⟨⟩ := u
          show checkKeyLoop rest ps = Except.ok () ↔ _
          rw [checkKeyLoop_ok_iff rest ps]
          constructor
          · intro h kv hkv
            rcases List.mem_cons.mp hkv with rfl | h2
            · exact ⟨d, hlk, (checkFieldLoop_ok_iff _ _).mp hcf⟩
            · exact h kv h2
          · intro h kv hkv
            exact h kv (List.mem_cons_of_mem _ hkv)

/-- Any error of the outer validation loop names a missing key. -/
theorem checkKeyLoop_error_missing : ∀ (defaults ps : ParamDict) (e : Err),
    checkKeyLoop defaults ps = Except.error e → ∃ k, e = Err.missingKey k
  | [], _, _ => by
      intro h
      cases h
  | (key, value) :: rest, ps, e => by
      rw [show checkKeyLoop ((key, value) :: rest) ps
          = (match ps.lookup key with
             | none => Except.error (Err.missingKey key)
             | some d => do
                 checkFieldLoop (value.map Prod.fst) d
                 checkKeyLoop rest ps) from rfl]
      cases hlk : ps.lookup key with
      | none =>
        intro h
        injection h with h2
        exact ⟨key, h2.symm⟩
      | some d =>
        show (do
            checkFieldLoop (value.map Prod.fst) d
            checkKeyLoop rest ps) = Except.error e → _
        cases hcf : checkFieldLoop (value.map Prod.fst) d with
        | error e2 =>
          intro h
          have h3 : Except.error (α := Unit) e2 = Except.error e := h
          injection h3 with h2
          obtain ⟨k, hk⟩ := checkFieldLoop_error_missing (value.map Prod.fst) d e2 hcf
          exact ⟨k, h2 ▸ hk⟩
        | ok u =>
          obtain ⟨⟩ := u
          intro h
          exact checkKeyLoop_error_missing rest ps e h

/-- C4 (amended): `calculate` rejects a caller-supplied parameter set iff the
set is MISSING one of the default type-name keys or one of the default fields
under a default key, and every such rejection is a validation error naming a
missing key; sets with extra keys or extra fields are accepted (see the
counterexample). -/
theorem calculate_validation_missing_only :
    ∀ ps : ParamDict,
      (checkKeyLoop HP_PARAMETERS ps = Except.ok () ↔
        ∀ kv ∈ HP_PARAMETERS, ∃ d, ps.lookup kv.1 = some d ∧
          ∀ f ∈ kv.2.map Prod.fst, (d.lookup f).isSome = true) ∧
      (∀ e : Err, checkKeyLoop HP_PARAMETERS ps = Except.error e →
        ∃ k, e = Err.missingKey k) ∧
      (∀ (powf : ℚ → ℚ → ℚ) (source_temperature sink_temperature : ℚ) (e : Err),
        checkKeyLoop HP_PARAMETERS ps = Except.error e →
        calculate powf source_temperature sink_temperature (some ps) =
          ([], Except.error e)) := by
  intro ps
  refine ⟨checkKeyLoop_ok_iff HP_PARAMETERS ps,
    checkKeyLoop_error_missing HP_PARAMETERS ps, ?_⟩
  intro powf src sink e h
  simp [calculate, resolveParams, h, bind, Except.bind]

/-- C4 witness: the empty parameter set is rejected with a validation error
naming the missing key `"conventional"`, before any COP computation. -/
theorem calculate_validation_missing_only_witness :
    calculate (fun _ _ => 1) 0 0 (some []) =
      ([], Except.error (Err.missingKey "conventional")) :=
  (calculate_validation_missing_only []).2.2 (fun _ _ => 1) 0 0
    (Err.missingKey "conventional") rfl

/-- Exhaustive behaviour of the interpolation body: a negative size fails
with the positivity error, a size below every key fails as too small, and
any other size yields a cost. -/
theorem interpolateTable_trichotomy (size : ℚ) (costs : List (ℚ × ℚ)) :
    (size < 0 ∧ interpolateTable size costs = Except.error Err.sizeNegative) ∨
    (0 ≤ size ∧ (∀ k ∈ costs.map Prod.fst, size < k) ∧
      interpolateTable size costs = Except.error Err.sizeTooSmall) ∨
    (0 ≤ size ∧ (∃ k ∈ costs.map Prod.fst, k ≤ size) ∧
      ∃ v, interpolateTable size costs = Except.ok v) := by
  by_cases hneg : size < 0
  · exact Or.inl ⟨hneg, by simp only [interpolateTable, if_pos hneg]⟩
  · have h0 : 0 ≤ size := not_lt.mp hneg
    simp only [interpolateTable, if_neg hneg]
    cases hlk : costs.lookup size with
    | some c =>
      have hmem : size ∈ costs.map Prod.fst := by
        have hs : (costs.lookup size).isSome = true := by rw [hlk]; rfl
        obtain ⟨p, hp, hbeq⟩ := List.lookup_isSome_iff.mp hs
        have : size = p.1 := by exact_mod_cast beq_iff_eq.mp hbeq
        exact this ▸ List.mem_map_of_mem Prod.fst hp
      exact Or.inr (Or.inr ⟨h0, ⟨size, hmem, le_refl size⟩, c, rfl⟩)
    | none =>
      have hcnt := (List.perm_insertionSort (· ≤ ·) (costs.map Prod.fst)).countP_eq
        (fun k => decide (k ≤ size))
      by_cases hpos :
          (List.insertionSort (· ≤ ·) (costs.map Prod.fst)).countP
            (fun k => decide (k ≤ size)) = 0
      · refine Or.inr (Or.inl ⟨h0, ?_, by simp only [if_pos hpos]⟩)
        intro k hk
        have hall := List.countP_eq_zero.mp hpos
        have hk2 : k ∈ List.insertionSort (· ≤ ·) (costs.map Prod.fst) :=
          (List.mem_insertionSort (· ≤ ·)).mpr hk
        have := hall k hk2
        simpa using this
      · refine Or.inr (Or.inr ⟨h0, ?_, ?_⟩)
        · have : ¬ ∀ a ∈ List.insertionSort (· ≤ ·) (costs.map Prod.fst),
              ¬ (fun k => decide (k ≤ size)) a = true := fun hc =>
            hpos (List.countP_eq_zero.mpr hc)
          push_neg at this
          obtain ⟨a, ha, ha2⟩ := this
          exact ⟨a, (List.mem_insertionSort (· ≤ ·)).mp ha, by simpa using ha2⟩
        · rw [if_neg hpos]
          by_cases hlen :
              (List.insertionSort (· ≤ ·) (costs.map Prod.fst)).countP
                (fun k => decide (k ≤ size))
              = (List.insertionSort (· ≤ ·) (costs.map Prod.fst)).length
          · rw [if_pos hlen]
            exact ⟨_, rfl⟩
          · rw [if_neg hlen]
            exact ⟨_, rfl⟩

/-- C8: `interpolate` fails exactly on out-of-domain-low inputs: a negative
size fails with the positivity validation error, a nonnegative size lying
strictly below every table key fails as too small, and every other input
returns a cost. -/
theorem interpolate_error_characterization :
    ∀ (size : ℚ) (costs : List (ℚ × ℚ)),
      (interpolate size (some costs) = Except.error Err.sizeNegative ↔ size < 0) ∧
      (interpolate size (some costs) = Except.error Err.sizeTooSmall ↔
        (0 ≤ size ∧ ∀ k ∈ costs.map Prod.fst, size < k)) ∧
      ((∃ v, interpolate size (some costs) = Except.ok v) ↔
        (0 ≤ size ∧ ∃ k ∈ costs.map Prod.fst, k ≤ size)) := by
  intro size costs
  have hi : interpolate size (some costs) = interpolateTable size costs := rfl
  rw [hi]
  rcases interpolateTable_trichotomy size costs with
    ⟨h1, h2⟩ | ⟨h1, h2, h3⟩ | ⟨h1, h2, h3⟩
  · rw [h2]
    refine ⟨⟨fun _ => h1, fun _ => rfl⟩, ⟨fun h => ?_, fun h => absurd h1 (not_lt.mpr h.1)⟩,
      ⟨fun h => ?_, fun h => absurd h1 (not_lt.mpr h.1)⟩⟩
    · cases h
    · obtain ⟨v, hv⟩ := h
      cases hv
  · rw [h3]
    refine ⟨⟨fun h => ?_, fun h => absurd h1 (not_le.mpr h)⟩, ⟨fun _ => ⟨h1, h2⟩, fun _ => rfl⟩,
      ⟨fun h => ?_, fun h => ?_⟩⟩
    · cases h
    · obtain ⟨v, hv⟩ := h
      cases hv
    · obtain ⟨k, hk, hk2⟩ := h.2
      exact absurd hk2 (not_le.mpr (h2 k hk))
  · obtain ⟨v, hv⟩ := h3
    rw [hv]
    refine ⟨⟨fun h => ?_, fun h => absurd h1 (not_le.mpr h)⟩,
      ⟨fun h => ?_, fun h => ?_⟩, ⟨fun _ => ⟨h1, h2⟩, fun _ => ⟨v, rfl⟩⟩⟩
    · cases h
    · cases h
    · obtain ⟨k, hk, hk2⟩ := h2
      exact absurd hk2 (not_le.mpr (h.2 k hk))

/-- In a strictly sorted list, the element bounding every other from above
sits at the last position. -/
theorem getD_last_of_max : ∀ (ks : List ℚ), ks.Pairwise (· < ·) → ∀ km, km ∈ ks →
    (∀ k ∈ ks, k ≤ km) → ks.getD (ks.length - 1) 0 = km
  | [], _, km, hm, _ => by cases hm
  | [a], _, km, hm, _ => by
      rcases List.mem_singleton.mp hm with rfl
      rfl
  | a :: b :: t, hp, km, hm, hb => by
      have hlt : ∀ k ∈ b :: t, a < k := (List.pairwise_cons.mp hp).1
      have hkm : km ∈ b :: t := by
        rcases List.mem_cons.mp hm with rfl | h
        · have hab := hlt b (List.mem_cons_self _ _)
          have hba := hb b (List.mem_cons_of_mem _ (List.mem_cons_self _ _))
          exact absurd (lt_of_lt_of_le hab hba) (lt_irrefl km)
        · exact h
      have ht : (b :: t).Pairwise (· < ·) := (List.pairwise_cons.mp hp).2
      have hb2 : ∀ k ∈ b :: t, k ≤ km := fun k hk => hb k (List.mem_cons_of_mem _ hk)
      have hrec := getD_last_of_max (b :: t) ht km hkm hb2
      show (a :: b :: t).getD ((b :: t).length + 1 - 1) 0 = km
      rw [Nat.add_sub_cancel]
      show (b :: t).getD ((b :: t).length - 1 + 1 - 1) 0 = km
      rw [Nat.add_sub_cancel]
      exact hrec

/-- In a strictly sorted list, the insertion count of a point lying strictly
between the adjacent members `x1 < x2` puts `x1` at position `pos - 1` and
`x2` at position `pos`, strictly inside the list. -/
theorem countP_bracket : ∀ (ks : List ℚ), ks.Pairwise (· < ·) → ∀ x1 x2 : ℚ, x1 ∈ ks →
    x2 ∈ ks → x1 < x2 → (∀ k ∈ ks, k ≤ x1 ∨ x2 ≤ k) →
    ks.countP (fun k => decide (k ≤ x1)) ≠ 0 ∧
    ks.countP (fun k => decide (k ≤ x1)) ≠ ks.length ∧
    ks.getD (ks.countP (fun k => decide (k ≤ x1)) - 1) 0 = x1 ∧
    ks.getD (ks.countP (fun k => decide (k ≤ x1))) 0 = x2
  | [], _, x1, _, hm, _, _, _ => by cases hm
  | a :: t, hp, x1, x2, hm1, hm2, hlt, hgap => by
      have hmin : ∀ k ∈ a :: t, a ≤ k := by
        intro k hk
        rcases List.mem_cons.mp hk with rfl | h
        · exact le_refl k
        · exact le_of_lt ((List.pairwise_cons.mp hp).1 k h)
      have ht : t.Pairwise (· < ·) := (List.pairwise_cons.mp hp).2
      have hax1 : a ≤ x1 := hmin x1 hm1
      have hcnt : (a :: t).countP (fun k => decide (k ≤ x1))
          = t.countP (fun k => decide (k ≤ x1)) + 1 :=
        List.countP_cons_of_pos _ _ (by simpa using hax1)
      by_cases hax : a = x1
      · subst hax
        have htall : ∀ k ∈ t, ¬ (k ≤ a) := by
          intro k hk
          exact not_le.mpr ((List.pairwise_cons.mp hp).1 k hk)
        have hcnt0 : t.countP (fun k => decide (k ≤ a)) = 0 :=
          List.countP_eq_zero.mpr (by intro k hk; simpa using htall k hk)
        have hx2t : x2 ∈ t := by
          rcases List.mem_cons.mp hm2 with rfl | h
          · exact absurd hlt (lt_irrefl x2)
          · exact h
        cases t with
        | nil => cases hx2t
        | cons b t2 =>
          have hbx2 : b = x2 := by
            have h1 : x2 ≤ b := by
              rcases hgap b (List.mem_cons_of_mem _ (List.mem_cons_self _ _)) with h | h
              · exact absurd h (htall b (List.mem_cons_self _ _))
              · exact h
            rcases List.mem_cons.mp hx2t with rfl | h2
            · rfl
            · exact absurd (lt_of_le_of_lt h1 ((List.pairwise_cons.mp ht).1 x2 h2))
                (lt_irrefl x2)
          rw [hcnt, hcnt0]
          subst hbx2
          exact ⟨Nat.one_ne_zero, by simp, rfl, rfl⟩
      · have hax1lt : a < x1 := lt_of_le_of_ne hax1 hax
        have hm1t : x1 ∈ t := by
          rcases List.mem_cons.mp hm1 with rfl | h
          · exact absurd rfl hax
          · exact h
        have hm2t : x2 ∈ t := by
          rcases List.mem_cons.mp hm2 with rfl | h
          · exact absurd (lt_trans hax1lt hlt) (lt_irrefl x2)
          · exact h
        have hgapt : ∀ k ∈ t, k ≤ x1 ∨ x2 ≤ k := fun k hk =>
          hgap k (List.mem_cons_of_mem _ hk)
        obtain ⟨hne0, hnel, hgd1, hgd2⟩ := countP_bracket t ht x1 x2 hm1t hm2t hlt hgapt
        obtain ⟨m, hm⟩ := Nat.exists_eq_succ_of_ne_zero hne0
        rw [hcnt, hm]
        refine ⟨Nat.succ_ne_zero _, ?_, ?_, ?_⟩
        · show m + 1 + 1 ≠ t.length + 1
          intro hc
          exact hnel (by omega)
        · show (a :: t).getD (m + 1 + 1 - 1) 0 = x1
          rw [Nat.add_sub_cancel]
          show t.getD m 0 = x1
          simpa [hm] using hgd1
        · show (a :: t).getD (m + 1 + 1) 0 = x2
          show t.getD (m + 1) 0 = x2
          simpa [hm] using hgd2

/-- C5: on every accepted nonnegative size, `interpolate` returns the stored
cost exactly when the size is a table key, returns the largest key's cost
(clamped, not extrapolated) when the size strictly exceeds every key, and
otherwise interpolates linearly between the two bracketing sorted keys. -/
theorem interpolate_value_cases :
    ∀ (size : ℚ) (costs : List (ℚ × ℚ)),
      0 ≤ size → (costs.map Prod.fst).Nodup →
      ((∀ v, costs.lookup size = some v →
          interpolate size (some costs) = Except.ok v) ∧
       (∀ km, km ∈ costs.map Prod.fst →
          (∀ k ∈ costs.map Prod.fst, k < size) →
          (∀ k ∈ costs.map Prod.fst, k ≤ km) →
          interpolate size (some costs) = Except.ok ((costs.lookup km).getD 0)) ∧
       (∀ x1 x2 : ℚ, x1 ∈ costs.map Prod.fst → x2 ∈ costs.map Prod.fst →
          x1 < size → size < x2 →
          (∀ k ∈ costs.map Prod.fst, k ≤ x1 ∨ x2 ≤ k) →
          interpolate size (some costs) =
            Except.ok ((costs.lookup x1).getD 0 +
              ((costs.lookup x2).getD 0 - (costs.lookup x1).getD 0) *
                (size - x1) / (x2 - x1)))) := by
  intro size costs h0 hnd
  have hneg : ¬ size < 0 := not_lt.mpr h0
  have hi : interpolate size (some costs) = interpolateTable size costs := rfl
  have hperm := List.perm_insertionSort (· ≤ ·) (costs.map Prod.fst)
  have hsorted : (List.insertionSort (· ≤ ·) (costs.map Prod.fst)).Pairwise (· ≤ ·) :=
    List.sorted_insertionSort (· ≤ ·) (costs.map Prod.fst)
  have hnd2 : (List.insertionSort (· ≤ ·) (costs.map Prod.fst)).Nodup :=
    hperm.nodup_iff.mpr hnd
  have hstrict : (List.insertionSort (· ≤ ·) (costs.map Prod.fst)).Pairwise (· < ·) :=
    (hsorted.and hnd2).imp fun h => lt_of_le_of_ne h.1 h.2
  have hmemt : ∀ k : ℚ, k ∈ costs.map Prod.fst ↔
      k ∈ List.insertionSort (· ≤ ·) (costs.map Prod.fst) := by
    intro k
    exact (List.mem_insertionSort (· ≤ ·)).symm
  refine ⟨?_, ?_, ?_⟩
  · intro v hv
    rw [hi]
    simp only [interpolateTable, if_neg hneg, hv]
  · intro km hkm hall hmax
    have hlknone : costs.lookup size = none := by
      rw [List.lookup_eq_none_iff]
      intro p hp
      have : p.1 < size := hall p.1 (List.mem_map_of_mem Prod.fst hp)
      exact bne_iff_ne.mpr (ne_of_gt this)
    rw [hi]
    simp only [interpolateTable, if_neg hneg, hlknone]
    have hcl : (List.insertionSort (· ≤ ·) (costs.map Prod.fst)).countP
        (fun k => decide (k ≤ size))
        = (List.insertionSort (· ≤ ·) (costs.map Prod.fst)).length := by
      rw [List.countP_eq_length]
      intro a ha
      exact decide_eq_true (le_of_lt (hall a ((hmemt a).mpr ha)))
    have hlen0 : (List.insertionSort (· ≤ ·) (costs.map Prod.fst)).length ≠ 0 := by
      intro hc
      rw [List.length_eq_zero] at hc
      have := (hmemt km).mp hkm
      rw [hc] at this
      cases this
    rw [hcl, if_neg hlen0, if_pos rfl]
    have hgd : (List.insertionSort (· ≤ ·) (costs.map Prod.fst)).getD
        ((List.insertionSort (· ≤ ·) (costs.map Prod.fst)).length - 1) 0 = km := by
      refine getD_last_of_max _ hstrict km ((hmemt km).mp hkm) ?_
      intro k hk
      exact hmax k ((hmemt k).mpr hk)
    rw [hgd]
  · intro x1 x2 h1m h2m hx1 hx2 hgap
    have hlknone : costs.lookup size = none := by
      rw [List.lookup_eq_none_iff]
      intro p hp
      rcases hgap p.1 (List.mem_map_of_mem Prod.fst hp) with h | h
      · exact bne_iff_ne.mpr (ne_of_gt (lt_of_le_of_lt h hx1))
      · exact bne_iff_ne.mpr (ne_of_lt (lt_of_lt_of_le hx2 h))
    rw [hi]
    simp only [interpolateTable, if_neg hneg, hlknone]
    have hcc : (List.insertionSort (· ≤ ·) (costs.map Prod.fst)).countP
        (fun k => decide (k ≤ size))
        = (List.insertionSort (· ≤ ·) (costs.map Prod.fst)).countP
          (fun k => decide (k ≤ x1)) := by
      refine List.countP_congr ?_
      intro a ha
      simp only [decide_eq_true_eq]
      constructor
      · intro h
        rcases hgap a ((hmemt a).mpr ha) with h2 | h2
        · exact h2
        · exact absurd (lt_of_lt_of_le hx2 h2) (not_lt.mpr h)
      · intro h
        exact le_of_lt (lt_of_le_of_lt h hx1)
    obtain ⟨hne0, hnel, hgd1, hgd2⟩ := countP_bracket
      (List.insertionSort (· ≤ ·) (costs.map Prod.fst)) hstrict x1 x2
      ((hmemt x1).mp h1m) ((hmemt x2).mp h2m) (lt_trans hx1 hx2)
      (fun k hk => hgap k ((hmemt k).mpr hk))
    rw [hcc, if_neg hne0, if_neg hnel, hgd1, hgd2]

/-- C5 witness: with the default cost table, `interpolate(16.5)` lands between
the keys 10 and 20 and returns `710000 + (510000 - 710000) * 6.5 / 10 =
580000`. -/
theorem interpolate_value_cases_witness :
    interpolate (33 / 2) (some COST_REGRESSION) = Except.ok 580000 := by
  have h := (interpolate_value_cases (33 / 2) COST_REGRESSION (by norm_num)
    (by decide)).2.2 10 20
    (by decide) (by decide)
    (by norm_num) (by norm_num)
    (by decide)
  have h10 : (List.lookup (10 : ℚ) COST_REGRESSION).getD 0 = 710000 := rfl
  have h20 : (List.lookup (20 : ℚ) COST_REGRESSION).getD 0 = 510000 := rfl
  rw [h, h10, h20]
  congr 1
  norm_num

/-- C1 witness: the failing call evaluated at a concrete power function. -/
theorem calculate_unclassified_default_raises_keyErrorNone_witness :
    calculate (fun _ _ => 0) (-20) 170 none =
      ([Warning.unclassified 170], Except.error Err.keyErrorNone) :=
  (calculate_unclassified_default_raises_keyErrorNone (fun _ _ => 0)).1

/-- C6 witness: the reference scenario `thermal_power(70, 40, 100)` returns
`4187 * 100 * 30 = 12561000 W` (about `12.56e6 W`). -/
theorem calculate_thermal_power_spec_witness :
    calculate_thermal_power 70 40 100 = Except.ok 12561000 := by
  have h := (calculate_thermal_power_spec 70 40 100).2 (by norm_num) (by norm_num)
  rw [h]
  congr 1
  norm_num

/-- C7 witness: `output_power(3, 10)` returns `(1 + 3) / 3 * 10 = 40/3`. -/
theorem calculate_output_power_spec_witness :
    calculate_output_power 3 10 = Except.ok (40 / 3) := by
  have h := (calculate_output_power_spec 3 10).2.2 (by norm_num) (by norm_num)
  rw [h]
  congr 1
  norm_num

/-- C8 witness: a negative size fails with the positivity validation error. -/
theorem interpolate_error_characterization_witness :
    interpolate (-1) (some COST_REGRESSION) = Except.error Err.sizeNegative :=
  ((interpolate_error_characterization (-1) COST_REGRESSION).1).mpr (by norm_num)

/-- C10 witness: the `None` default evaluated at a concrete sink temperature. -/
theorem classify_hp_none_raises_witness :
    classify_hp 0 none = Except.error Err.noneHasNoItems :=
  classify_hp_none_raises 0

end PyHeatPump
